import Mathlib

/-!
Verification of the SeismicMesh `MeshSizeFunction` sizing-field pipeline
(`SeismicMesh/sizing/mesh_size_function.py`) against its specification.

The pipeline is embedded shallowly over exact rational arithmetic:
grids are lists of rationals (2D/3D grids are nested lists), the builder
steps of `MeshSizeFunction.build` are pure functions applied in the order
the source applies them, and the object state mutated by the domain
extension is threaded explicitly through an `MsfState` record.
-/

namespace SeismicMesh

/-- Builder parameters of `MeshSizeFunction.build` (hmax is `none` when the
Python default `np.inf` is kept, mirroring the `if _hmax < np.inf` guard). -/
structure SizeParams where
  hmin : ℚ
  hmax : Option ℚ
  wl : ℚ
  freq : ℚ
  dt : ℚ
  cr_max : ℚ
  grade : ℚ
deriving DecidableEq

/-- Steps 1-2 of `build`: `hh_m = zeros + hmin`, overwritten by
`_vp / (_freq * _wl)` when `_wl > 0` (lines 349-359). The grid is kept
flattened; its shape plays no role in the pointwise steps. -/
def wlInit (p : SizeParams) (vp : List ℚ) : List ℚ :=
  if 0 < p.wl then vp.map (fun v => v / (p.freq * p.wl))
  else List.replicate vp.length p.hmin

/-- Line 361: `np.where(hh_m < _hmin, _hmin, hh_m)`. -/
def clampHminL (m : ℚ) (h : List ℚ) : List ℚ :=
  h.map (fun x => if x < m then m else x)

/-- Lines 362-364: `np.where(hh_m > _hmax, _hmax, hh_m)`, only when hmax is
finite. -/
def clampHmaxL (hmax : Option ℚ) (h : List ℚ) : List ℚ :=
  match hmax with
  | some M => h.map (fun x => if M < x then M else x)
  | none => h

/-- Step 3 of `build` (lines 360-364): clamp below to hmin, then above to
hmax when finite. -/
def clampStep (p : SizeParams) (h : List ℚ) : List ℚ :=
  clampHmaxL p.hmax (clampHminL p.hmin h)

/-- Modelled from the spec: one neighbour-pair update of the gradient
limiter `limgrad`, whose C++ implementation (`.cpp.limgrad`, imported at
line 18 and called from `MeshSizeFunction.hj`) is not part of the Python
source. Per spec section 4.2, where the bound `|h_a - h_b| <= grade * d` is
violated the larger value is reduced to `smaller + grade * d`. An edge is
`(a, b, d)`: two flat node indices and their physical distance. -/
def limStep (g : ℚ) (h : List ℚ) (e : Nat × Nat × ℚ) : List ℚ :=
  if h.getD e.2.1 0 + g * e.2.2 < h.getD e.1 0 then
    h.set e.1 (h.getD e.2.1 0 + g * e.2.2)
  else if h.getD e.1 0 + g * e.2.2 < h.getD e.2.1 0 then
    h.set e.2.1 (h.getD e.1 0 + g * e.2.2)
  else h

/-- Modelled from the spec: one relaxation sweep of the gradient limiter,
visiting every lattice edge in a fixed traversal order (spec section 4.2). -/
def limSweep (g : ℚ) (es : List (Nat × Nat × ℚ)) (h : List ℚ) : List ℚ :=
  es.foldl (limStep g) h

/-- Modelled from the spec: the iterative gradient limiter `limgrad` (C++
code missing from the source tree; spec section 4.2). Sweeps repeat until a
sweep makes no change (the convergence test, with tolerance zero in exact
arithmetic) or the iteration cap is spent. The boolean reports convergence;
`false` is the non-fatal warning case and still returns the best-effort
field. -/
def limgrad (g : ℚ) (es : List (Nat × Nat × ℚ)) (n : Nat) (h : List ℚ) :
    List ℚ × Bool :=
  match n with
  | 0 => (h, false)
  | Nat.succ m =>
    let h' := limSweep g es h
    if h' = h then (h, true) else limgrad g es m h'

/-- Flat Fortran-order index of lattice node `(i, j)` on an `nz` by `nx`
grid, as produced by `fun.flatten("F")` in `MeshSizeFunction.hj`. -/
def idx2F (nz i j : Nat) : Nat := i + nz * j

/-- Lattice adjacency of a 2D `nz` by `nx` grid with uniform physical
spacing `elen` between adjacent nodes, in Fortran-order flat indices. -/
def latticeEdges2D (nz nx : Nat) (elen : ℚ) : List (Nat × Nat × ℚ) :=
  ((List.range nx).flatMap fun j =>
    (List.range (nz - 1)).map fun i => (idx2F nz i j, idx2F nz (i + 1) j, elen)) ++
  ((List.range (nx - 1)).flatMap fun j =>
    (List.range nz).map fun i => (idx2F nz i j, idx2F nz i (j + 1), elen))

/-- Step of `build` at lines 366-368: gradation limiting when `_grade > 0`
(the source calls `self.hj(hh_m, _width / _nx, 10000)`, which forwards to
`limgrad`; the edge list and iteration cap are parameters here). -/
def gradeStep (p : SizeParams) (es : List (Nat × Nat × ℚ)) (n : Nat)
    (h : List ℚ) : List ℚ :=
  if 0 < p.grade then (limgrad p.grade es n h).1 else h

/-- Per-node CFL update of lines 372-374: `cr_old = _vp * _dt / hh_m`,
`dxn = _vp * _dt / _cr_max`, `np.where(cr_old > _cr_max, dxn, hh_m)`. -/
def cflNode (dt cr v x : ℚ) : ℚ :=
  if cr < v * dt / x then v * dt / cr else x

/-- CFL adjustment over the whole grid (lines 372-374). -/
def cflAdjust (dt cr : ℚ) (vp h : List ℚ) : List ℚ :=
  List.zipWith (cflNode dt cr) vp h

/-- Step of `build` at lines 370-374: the CFL adjustment, only when
`_dt > 0`. -/
def cflStep (p : SizeParams) (vp h : List ℚ) : List ℚ :=
  if 0 < p.dt then cflAdjust p.dt p.cr_max vp h else h

/-- The sizing grid produced by `build` before the domain-extension edit
(lines 349-374), with the steps in the source's order: initialise/wl rule,
clamp to [hmin, hmax], gradation limiting, CFL adjustment. -/
def buildField (p : SizeParams) (vp : List ℚ) (es : List (Nat × Nat × ℚ))
    (n : Nat) : List ℚ :=
  cflStep p vp (gradeStep p es n (clampStep p (wlInit p vp)))

/-- The builder pipeline in the order claimed by the spec (section 4.1
step 4 followed by section 4.2): CFL adjustment inside the builder, then
gradation limiting. Stated only to be compared against `buildField`. -/
def buildFieldClaimOrder (p : SizeParams) (vp : List ℚ)
    (es : List (Nat × Nat × ℚ)) (n : Nat) : List ℚ :=
  gradeStep p es n (cflStep p vp (clampStep p (wlInit p vp)))

/-- The slice of `MeshSizeFunction` object state read and mutated by the
domain-extension code (`__CreateDomainExtension`, lines 695-723, and the
fields set in `__init__`). `bbox` is kept as a list of 4 (2D) or 6 (3D)
bounds. -/
structure MsfState where
  bbox : List ℚ
  width : ℚ
  depth : ℚ
  length : ℚ
  domain_ext : ℚ
  spacing : ℚ
  dim : Nat
deriving DecidableEq

/-- The pad count `nnx = int(_domain_ext / _spacing)` computed in
`__EditMeshSizeFunction` and `__CreateDomainVectors` (lines 628, 667). -/
def nnxOf (s : MsfState) : Nat := (s.domain_ext / s.spacing).floor.toNat

/-- Private method `__CreateDomainExtension` (lines 695-723): when
`domain_ext > 0`, rewrite `self.bbox` in place (low z and low x bounds move
out by `domain_ext`, high x bound moves out by `domain_ext`; in 3D both y
bounds move out as well) and refresh `self.width`, `self.depth` and, in 3D,
`self.length` from the new bbox. -/
def createDomainExtension (s : MsfState) : MsfState :=
  if 0 < s.domain_ext then
    let b := s.bbox
    let e := s.domain_ext
    if s.dim = 2 then
      let bn := [b.getD 0 0 - e, b.getD 1 0, b.getD 2 0 - e, b.getD 3 0 + e]
      { s with bbox := bn, width := bn.getD 3 0 - bn.getD 2 0,
               depth := bn.getD 1 0 - bn.getD 0 0 }
    else
      let bn := [b.getD 0 0 - e, b.getD 1 0, b.getD 2 0 - e, b.getD 3 0 + e,
                 b.getD 4 0 - e, b.getD 5 0 + e]
      { s with bbox := bn, width := bn.getD 3 0 - bn.getD 2 0,
               depth := bn.getD 1 0 - bn.getD 0 0,
               length := bn.getD 5 0 - bn.getD 4 0 }
  else s

/-- The state effect of `build` on the object (lines 376-377): when
`domain_ext > 0` the object is rebound to the result of
`__CreateDomainExtension`, otherwise it is untouched. -/
def buildStateEffect (s : MsfState) : MsfState :=
  if 0 < s.domain_ext then createDomainExtension s else s

/-- Model of `np.linspace a b n` over exact rationals (used at lines
635-636 with `dtype=np.float32`; rounding to float32 is not modelled). -/
def linspace (a b : ℚ) (n : Nat) : List ℚ :=
  if n ≤ 1 then List.replicate n a
  else (List.range n).map fun i : Nat => a + (b - a) * (i : ℚ) / ((n : ℚ) - 1)

/-- Private method `__CreateDomainVectors` for a 2D object (lines 615-639):
the node counts are the stored grid dimensions, augmented by the pad count
when `domain_ext > 0`; the z vector spans `[-depth, 0]` and the x vector
spans `[-domain_ext, width - domain_ext]`. `nz`, `nx` are the grid
dimensions of the velocity model, which the extension never updates. -/
def createDomainVectors2D (s : MsfState) (nz nx : Nat) : List ℚ × List ℚ :=
  let nnx := nnxOf s
  let nz' := if 0 < s.domain_ext then nz + nnx else nz
  let nx' := if 0 < s.domain_ext then nx + 2 * nnx else nx
  (linspace (-s.depth) 0 nz', linspace (0 - s.domain_ext) (s.width - s.domain_ext) nx')

/-- The pad styles accepted by the `padstyle` setter (line 302). -/
inductive PadStyle where
  | edge
  | constant
  | linearRamp
deriving DecidableEq

/-- Edge-replication padding of one axis of a (possibly nested) list:
`lo` copies of the first entry before, `hi` copies of the last entry after
(one axis of `np.pad(.., "edge")`). -/
def padAxisEdge {α : Type} (lo hi : Nat) : List α → List α
  | [] => []
  | x :: xs => List.replicate lo x ++ (x :: xs) ++
      List.replicate hi ((x :: xs).getLastD x)

/-- Constant padding of one axis with value `v`. -/
def padAxisConst {α : Type} (lo hi : Nat) (v : α) (l : List α) : List α :=
  List.replicate lo v ++ l ++ List.replicate hi v

/-- Leading linear-ramp padding of one axis: `np.pad(l, (k, 0),
"linear_ramp", end_values=E)` prepends `E + (edge - E) * j / k` for
`j = 0 .. k-1`, where `edge` is the first entry. -/
def padRampBefore (k : Nat) (E : ℚ) (l : List ℚ) : List ℚ :=
  ((List.range k).map fun j => E + (l.headD 0 - E) * (j : ℚ) / (k : ℚ)) ++ l

/-- Trailing linear-ramp padding of one axis: `np.pad(l, (0, k),
"linear_ramp", end_values=E)` appends `edge + (E - edge) * (j + 1) / k` for
`j = 0 .. k-1`, where `edge` is the last entry. -/
def padRampAfter (k : Nat) (E : ℚ) (l : List ℚ) : List ℚ :=
  l ++ ((List.range k).map fun j => l.getLastD 0 + (E - l.getLastD 0) * ((j : ℚ) + 1) / (k : ℚ))

/-- Maximum entry of a 2D grid, `np.amax` (line 672). -/
def amax2 (hh : List (List ℚ)) : ℚ :=
  let l := hh.flatten
  l.foldl max (l.headD 0)

/-- Clamp every entry of a 2D grid to `hmax` when finite
(`np.where(hh_m > _hmax, _hmax, hh_m)`, line 685). -/
def clampMax2 (hmax : Option ℚ) (hh : List (List ℚ)) : List (List ℚ) :=
  match hmax with
  | some M => hh.map fun r => r.map fun x => if M < x then M else x
  | none => hh

/-- Clamp every entry of a 3D grid to `hmax` when finite (line 692). -/
def clampMax3 (hmax : Option ℚ) (hh : List (List (List ℚ))) :
    List (List (List ℚ)) :=
  match hmax with
  | some M => hh.map fun pl => pl.map fun r => r.map fun x => if M < x then M else x
  | none => hh

/-- Private method `__EditMeshSizeFunction`, 2D branch (lines 671-686):
pad the grid `((nnx, 0), (nnx, nnx))` with the selected style (edge
replication, constant fill with the grid maximum, or linear ramp to the
grid maximum), then re-clamp to hmax. -/
def editMeshSizeFunction2D (ps : PadStyle) (nnx : Nat) (hmax : Option ℚ)
    (hh : List (List ℚ)) : List (List ℚ) :=
  let mx := amax2 hh
  let padded :=
    match ps with
    | .edge => padAxisEdge nnx 0 (hh.map (padAxisEdge nnx nnx))
    | .constant =>
        let rows := (hh.headD []).length
        (padAxisConst nnx 0 (List.replicate rows mx) hh).map
          (padAxisConst nnx nnx mx)
    | .linearRamp =>
        let firstRow := hh.headD []
        let rampRows := (List.range nnx).map fun j =>
          firstRow.map fun edge => mx + (edge - mx) * (j : ℚ) / (nnx : ℚ)
        (rampRows ++ hh).map fun r => padRampAfter nnx mx (padRampBefore nnx mx r)
  clampMax2 hmax padded

/-- Private method `__EditMeshSizeFunction`, 3D branch (lines 687-693):
edge padding `((nnx, nnx), (nnx, nnx), (nnx, 0))`; any other pad style only
prints a message (the boolean reports that the message was emitted) and
leaves the grid unpadded; either way the grid is re-clamped to hmax and
returned. -/
def editMeshSizeFunction3D (ps : PadStyle) (nnx : Nat) (hmax : Option ℚ)
    (hh : List (List (List ℚ))) : List (List (List ℚ)) × Bool :=
  match ps with
  | .edge =>
      (clampMax3 hmax
        (padAxisEdge nnx nnx
          (hh.map fun pl => padAxisEdge nnx nnx (pl.map (padAxisEdge nnx 0)))),
       false)
  | _ => (clampMax3 hmax hh, true)

/-- The domain-extension fragment of `build` for a 3D object (lines
376-378): when `domain_ext > 0`, rebind the state to the extended one and
the grid to the edited one; the boolean is the unsupported-pad-style
report of `__EditMeshSizeFunction`. -/
def buildExtend3D (s : MsfState) (ps : PadStyle) (hmax : Option ℚ)
    (hh : List (List (List ℚ))) : MsfState × List (List (List ℚ)) × Bool :=
  if 0 < s.domain_ext then
    let s' := createDomainExtension s
    let r := editMeshSizeFunction3D ps (nnxOf s') hmax hh
    (s', r.1, r.2)
  else (s, hh, false)

/-- The grid of a 2D `build` run after the optional domain-extension edit
(lines 376-378). -/
def extendedGrid2D (s : MsfState) (ps : PadStyle) (hmax : Option ℚ)
    (hh : List (List ℚ)) : List (List ℚ) :=
  if 0 < s.domain_ext then
    editMeshSizeFunction2D ps (nnxOf (createDomainExtension s)) hmax hh
  else hh

/-- The tail of a 2D `build` run (lines 376-397): apply the optional
domain extension, then check `np.all(hh_m > 0.0)` (line 385). On success
the (state, grid) pair feeds the interpolant and the signed-distance
function; a non-positive entry makes the assertion fail, so nothing is
produced (`none`). -/
def buildTail2D (s : MsfState) (ps : PadStyle) (hmax : Option ℚ)
    (hh : List (List ℚ)) : Option (MsfState × List (List ℚ)) :=
  let hh' := extendedGrid2D s ps hmax hh
  if hh'.flatten.all (fun x => decide (0 < x)) then
    some (buildStateEffect s, hh')
  else none

/-- The `bbox` setter's assertion (lines 142-147):
`len(value) >= 4 and len(value) <= 6`. -/
def bboxSetterOk (len : Nat) : Bool :=
  decide (4 ≤ len) && decide (len ≤ 6)

/-- The `dim` setter's assertion (lines 162-165): `value == 2 or value == 3`. -/
def dimSetterOk (d : Nat) : Bool := d == 2 || d == 3

/-- The bbox-related validation run by `__init__` (lines 95-96): the bbox
setter's assertion on the length, then `self.dim = int(len(bbox) / 2)`
through the dim setter's assertion. Returns `true` when construction gets
past both assertions. -/
def initBboxAccepted (len : Nat) : Bool :=
  bboxSetterOk len && dimSetterOk (len / 2)

/-- Pointwise order on lists of rationals, used to state that the gradient
limiter never increases a value (spec section 4.2's guarantee). -/
def listLE (a b : List ℚ) : Prop := List.Forall₂ (· ≤ ·) a b

/-- Builder parameters of a run with `hmin = 1`, `hmax = 5`, `wl` disabled,
`dt = 0.001`, `cr_max = 0.2`, gradation disabled. -/
def paramsCflOverride : SizeParams := ⟨1, some 5, 0, 5, 1/1000, 1/5, 0⟩

/-- Builder parameters of a run with every optional rule disabled
(`wl = dt = grade = 0`) and `hmax = 5`. -/
def paramsClampOnly : SizeParams := ⟨1, some 5, 0, 5, 0, 1/5, 0⟩

/-- Builder parameters of a run with the wavelength rule, gradation
(`grade = 0.1`) and the CFL rule (`dt = 1`, `cr_max = 0.2`) all active and
no hmax. -/
def paramsGradeThenCfl : SizeParams := ⟨1, none, 1, 1, 1, 1/5, 1/10⟩

/-- A 2D object state as `__init__` builds it for
`bbox = (-1000, 0, 0, 2000)` with `domain_ext = 200`. -/
def extState2D : MsfState := ⟨[-1000, 0, 0, 2000], 2000, 1000, 0, 200, 1, 2⟩

/-- A 2D object state for `bbox = (-1000, 0, 0, 2000)` with
`domain_ext = 200` and grid spacing 100 (so the pad count is 2). -/
def anchoredState2D : MsfState := ⟨[-1000, 0, 0, 2000], 2000, 1000, 0, 200, 100, 2⟩

/-- A 2D object state as `__init__` builds it for the bounding box
`(-1000, 100, 50, 2050)` — valid, but not anchored at `zmax = 0`,
`xmin = 0` — with no domain extension. -/
def skewedState2D : MsfState := ⟨[-1000, 100, 50, 2050], 2000, 1100, 0, 0, 1, 2⟩

/-- A 3D object state for `bbox = (-1000, 0, 0, 2000, 0, 2000)` with
`domain_ext = 2` and spacing 1. -/
def extState3D : MsfState := ⟨[-1000, 0, 0, 2000, 0, 2000], 2000, 1000, 2000, 2, 1, 3⟩

theorem listLE_refl (l : List ℚ) : listLE l l := by
  induction l with
  | nil => exact List.Forall₂.nil
  | cons x xs ih => exact List.Forall₂.cons le_rfl ih

theorem listLE_trans {a b c : List ℚ} (h1 : listLE a b) (h2 : listLE b c) :
    listLE a c := by
  induction h1 generalizing c with
  | nil => cases h2; exact .nil
  | cons hxy _ ih =>
    cases h2 with
    | cons hyz htl => exact .cons (le_trans hxy hyz) (ih htl)

theorem listLE_antisymm {a b : List ℚ} (h1 : listLE a b) (h2 : listLE b a) :
    a = b := by
  induction h1 with
  | nil => rfl
  | cons hxy _ ih =>
    cases h2 with
    | cons hyx htl => rw [le_antisymm hxy hyx, ih htl]

theorem listLE_mem_le {a b : List ℚ} {M : ℚ} (h : listLE a b)
    (hb : ∀ y ∈ b, y ≤ M) : ∀ x ∈ a, x ≤ M := by
  induction h with
  | nil => intro x hx; simp at hx
  | cons hxy _ ih =>
    intro x hx
    rcases List.mem_cons.mp hx with rfl | hx'
    · exact le_trans hxy (hb _ (List.mem_cons_self _ _))
    · exact ih (fun y hy => hb y (List.mem_cons_of_mem _ hy)) x hx'

theorem getD_set_self {l : List ℚ} {a : Nat} {v : ℚ} (h : a < l.length) :
    (l.set a v).getD a 0 = v := by
  induction l generalizing a with
  | nil => simp at h
  | cons x xs ih =>
    cases a with
    | zero => rfl
    | succ n => simpa using ih (by simpa using h)

theorem getD_mem {l : List ℚ} {n : Nat} (h : n < l.length) :
    l.getD n 0 ∈ l := by
  induction l generalizing n with
  | nil => simp at h
  | cons x xs ih =>
    cases n with
    | zero => exact List.mem_cons_self _ _
    | succ m => exact List.mem_cons_of_mem _ (ih (by simpa using h))

theorem mem_of_mem_set {l : List ℚ} {n : Nat} {v x : ℚ}
    (h : x ∈ l.set n v) : x ∈ l ∨ x = v := by
  induction l generalizing n with
  | nil => simp at h
  | cons y ys ih =>
    cases n with
    | zero =>
      rcases List.mem_cons.mp h with rfl | h'
      · exact Or.inr rfl
      · exact Or.inl (List.mem_cons_of_mem _ h')
    | succ m =>
      rcases List.mem_cons.mp h with rfl | h'
      · exact Or.inl (List.mem_cons_self _ _)
      · rcases ih h' with h'' | rfl
        · exact Or.inl (List.mem_cons_of_mem _ h'')
        · exact Or.inr rfl

theorem set_listLE {l : List ℚ} {a : Nat} {v : ℚ} (h : v ≤ l.getD a 0) :
    listLE (l.set a v) l := by
  induction l generalizing a with
  | nil => exact .nil
  | cons x xs ih =>
    cases a with
    | zero => exact .cons h (listLE_refl xs)
    | succ n => exact .cons le_rfl (ih h)

theorem limStep_le (g : ℚ) (h : List ℚ) (e : Nat × Nat × ℚ) :
    listLE (limStep g h e) h := by
  unfold limStep
  split_ifs with h1 h2
  · exact set_listLE (le_of_lt h1)
  · exact set_listLE (le_of_lt h2)
  · exact listLE_refl h

theorem limSweep_le (g : ℚ) (es : List (Nat × Nat × ℚ)) (h : List ℚ) :
    listLE (limSweep g es h) h := by
  induction es generalizing h with
  | nil => exact listLE_refl h
  | cons e es ih => exact listLE_trans (ih (limStep g h e)) (limStep_le g h e)

theorem limSweep_fix {g : ℚ} {es : List (Nat × Nat × ℚ)} {h : List ℚ}
    (hfix : limSweep g es h = h) : ∀ e ∈ es, limStep g h e = h := by
  induction es with
  | nil => intro e he; simp at he
  | cons e es ih =>
    have hfix' : limSweep g es (limStep g h e) = h := hfix
    have h1 : listLE h (limStep g h e) := by
      have := limSweep_le g es (limStep g h e)
      rwa [hfix'] at this
    have heq : limStep g h e = h := listLE_antisymm (limStep_le g h e) h1
    rw [heq] at hfix'
    intro e' he'
    rcases List.mem_cons.mp he' with rfl | he''
    · exact heq
    · exact ih hfix' e' he''

theorem limgrad_le (g : ℚ) (es : List (Nat × Nat × ℚ)) (n : Nat)
    (h : List ℚ) : listLE (limgrad g es n h).1 h := by
  induction n generalizing h with
  | zero => exact listLE_refl h
  | succ m ih =>
    by_cases hc : limSweep g es h = h
    · simp only [limgrad, if_pos hc]
      exact listLE_refl h
    · simp only [limgrad, if_neg hc]
      exact listLE_trans (ih (limSweep g es h)) (limSweep_le g es h)

theorem limgrad_conv {g : ℚ} {es : List (Nat × Nat × ℚ)} {n : Nat}
    {h : List ℚ} (hc : (limgrad g es n h).2 = true) :
    limSweep g es (limgrad g es n h).1 = (limgrad g es n h).1 := by
  induction n generalizing h with
  | zero => simp [limgrad] at hc
  | succ m ih =>
    by_cases hfix : limSweep g es h = h
    · simp only [limgrad, if_pos hfix]
      exact hfix
    · simp only [limgrad, if_neg hfix] at hc ⊢
      exact ih hc

theorem limgrad_length (g : ℚ) (es : List (Nat × Nat × ℚ)) (n : Nat)
    (h : List ℚ) : (limgrad g es n h).1.length = h.length :=
  (limgrad_le g es n h).length_eq

theorem limStep_fix_inv {g : ℚ} {h : List ℚ} {e : Nat × Nat × ℚ}
    (ha : e.1 < h.length) (hb : e.2.1 < h.length)
    (hfix : limStep g h e = h) :
    |h.getD e.1 0 - h.getD e.2.1 0| ≤ g * e.2.2 := by
  unfold limStep at hfix
  split_ifs at hfix with h1 h2
  · have heq := congrArg (fun l => l.getD e.1 0) hfix
    simp only at heq
    rw [getD_set_self ha] at heq
    exact absurd heq (ne_of_lt h1)
  · have heq := congrArg (fun l => l.getD e.2.1 0) hfix
    simp only at heq
    rw [getD_set_self hb] at heq
    exact absurd heq (ne_of_lt h2)
  · push_neg at h1 h2
    rw [abs_sub_le_iff]
    constructor <;> linarith

theorem limStep_length (g : ℚ) (h : List ℚ) (e : Nat × Nat × ℚ) :
    (limStep g h e).length = h.length :=
  (limStep_le g h e).length_eq

theorem limSweep_length (g : ℚ) (es : List (Nat × Nat × ℚ)) (h : List ℚ) :
    (limSweep g es h).length = h.length :=
  (limSweep_le g es h).length_eq

theorem limStep_lb {g m : ℚ} {h : List ℚ} {e : Nat × Nat × ℚ}
    (ha : e.1 < h.length) (hb : e.2.1 < h.length)
    (hg : 0 ≤ g) (hd : 0 ≤ e.2.2) (hlb : ∀ x ∈ h, m ≤ x) :
    ∀ x ∈ limStep g h e, m ≤ x := by
  intro x hx
  unfold limStep at hx
  split_ifs at hx with h1 h2
  · rcases mem_of_mem_set hx with hx' | rfl
    · exact hlb x hx'
    · have hbm : m ≤ h.getD e.2.1 0 := hlb _ (getD_mem hb)
      have := mul_nonneg hg hd
      linarith
  · rcases mem_of_mem_set hx with hx' | rfl
    · exact hlb x hx'
    · have ham : m ≤ h.getD e.1 0 := hlb _ (getD_mem ha)
      have := mul_nonneg hg hd
      linarith
  · exact hlb x hx

theorem limSweep_lb {g m : ℚ} {es : List (Nat × Nat × ℚ)} {h : List ℚ}
    (hval : ∀ e ∈ es, e.1 < h.length ∧ e.2.1 < h.length ∧ 0 ≤ e.2.2)
    (hg : 0 ≤ g) (hlb : ∀ x ∈ h, m ≤ x) :
    ∀ x ∈ limSweep g es h, m ≤ x := by
  induction es generalizing h with
  | nil => exact hlb
  | cons e es ih =>
    have he := hval e (List.mem_cons_self _ _)
    refine ih (fun e' he' => ?_) (limStep_lb he.1 he.2.1 hg he.2.2 hlb)
    rw [limStep_length]
    exact hval e' (List.mem_cons_of_mem _ he')

theorem limgrad_lb {g m : ℚ} {es : List (Nat × Nat × ℚ)} {n : Nat}
    {h : List ℚ}
    (hval : ∀ e ∈ es, e.1 < h.length ∧ e.2.1 < h.length ∧ 0 ≤ e.2.2)
    (hg : 0 ≤ g) (hlb : ∀ x ∈ h, m ≤ x) :
    ∀ x ∈ (limgrad g es n h).1, m ≤ x := by
  induction n generalizing h with
  | zero => exact hlb
  | succ k ih =>
    by_cases hc : limSweep g es h = h
    · simpa only [limgrad, if_pos hc] using hlb
    · simp only [limgrad, if_neg hc]
      refine ih (fun e' he' => ?_) (limSweep_lb hval hg hlb)
      rw [limSweep_length]
      exact hval e' he'

theorem wlInit_length (p : SizeParams) (vp : List ℚ) :
    (wlInit p vp).length = vp.length := by
  unfold wlInit
  split_ifs <;> simp

theorem clampHminL_length (m : ℚ) (h : List ℚ) :
    (clampHminL m h).length = h.length := by
  simp [clampHminL]

theorem clampHmaxL_length (hmax : Option ℚ) (h : List ℚ) :
    (clampHmaxL hmax h).length = h.length := by
  cases hmax <;> simp [clampHmaxL]

theorem clampStep_length (p : SizeParams) (h : List ℚ) :
    (clampStep p h).length = h.length := by
  rw [clampStep, clampHmaxL_length, clampHminL_length]

theorem gradeStep_length (p : SizeParams) (es : List (Nat × Nat × ℚ))
    (n : Nat) (h : List ℚ) : (gradeStep p es n h).length = h.length := by
  unfold gradeStep
  split_ifs with hg
  · exact limgrad_length _ _ _ _
  · rfl

theorem clampHminL_lb (m : ℚ) (h : List ℚ) : ∀ x ∈ clampHminL m h, m ≤ x := by
  intro x hx
  rcases List.mem_map.mp hx with ⟨a, _, rfl⟩
  split_ifs with hc
  · exact le_rfl
  · exact le_of_not_lt hc

theorem clampStep_lb {p : SizeParams} (h : List ℚ)
    (hM : ∀ M, p.hmax = some M → p.hmin ≤ M) :
    ∀ x ∈ clampStep p h, p.hmin ≤ x := by
  intro x hx
  unfold clampStep clampHmaxL at hx
  cases hmx : p.hmax with
  | none =>
    rw [hmx] at hx
    exact clampHminL_lb _ _ x hx
  | some M =>
    rw [hmx] at hx
    rcases List.mem_map.mp hx with ⟨a, ha, rfl⟩
    split_ifs with hc
    · exact hM M hmx
    · exact clampHminL_lb _ _ a ha

theorem clampStep_ub {p : SizeParams} {M : ℚ} (h : List ℚ)
    (hmx : p.hmax = some M) : ∀ x ∈ clampStep p h, x ≤ M := by
  intro x hx
  unfold clampStep clampHmaxL at hx
  rw [hmx] at hx
  rcases List.mem_map.mp hx with ⟨a, _, rfl⟩
  split_ifs with hc
  · exact le_rfl
  · exact le_of_not_lt hc

theorem cflAdjust_lb {dt cr m : ℚ} (hcr : 0 < cr) (hm : 0 < m)
    {vp h : List ℚ} (hlb : ∀ x ∈ h, m ≤ x) :
    ∀ y ∈ cflAdjust dt cr vp h, m ≤ y := by
  induction vp generalizing h with
  | nil => intro y hy; simp [cflAdjust] at hy
  | cons v vs ih =>
    cases h with
    | nil => intro y hy; simp [cflAdjust] at hy
    | cons x xs =>
      intro y hy
      rcases List.mem_cons.mp hy with rfl | hy'
      · unfold cflNode
        split_ifs with hgt
        · have hx : m ≤ x := hlb x (List.mem_cons_self _ _)
          have hx0 : 0 < x := lt_of_lt_of_le hm hx
          have h1 : cr * x < v * dt := (lt_div_iff₀ hx0).mp hgt
          have h2 : x < v * dt / cr :=
            (lt_div_iff₀ hcr).mpr (by linarith [mul_comm x cr])
          linarith
        · exact hlb x (List.mem_cons_self _ _)
      · exact ih (fun z hz => hlb z (List.mem_cons_of_mem _ hz)) y hy'

theorem cflAdjust_courant {dt cr : ℚ} (hcr : 0 < cr) {vp h : List ℚ}
    (hlen : vp.length = h.length) (hpos : ∀ x ∈ h, 0 < x) :
    List.Forall₂ (fun v y => v * dt / y ≤ cr) vp (cflAdjust dt cr vp h) := by
  induction vp generalizing h with
  | nil =>
    cases h with
    | nil => exact .nil
    | cons x xs => simp at hlen
  | cons v vs ih =>
    cases h with
    | nil => simp at hlen
    | cons x xs =>
      refine .cons ?_ (ih (by simpa using hlen)
        (fun z hz => hpos z (List.mem_cons_of_mem _ hz)))
      unfold cflNode
      split_ifs with hgt
      · have hx0 : 0 < x := hpos x (List.mem_cons_self _ _)
        have h1 : cr * x < v * dt := (lt_div_iff₀ hx0).mp hgt
        have hvdt : 0 < v * dt := lt_trans (mul_pos hcr hx0) h1
        have hq : 0 < v * dt / cr := div_pos hvdt hcr
        rw [div_le_iff₀ hq, mul_comm cr (v * dt / cr), div_mul_cancel₀ _ (ne_of_gt hcr)]
      · exact le_of_not_lt hgt

theorem linspace_length (a b : ℚ) (n : Nat) : (linspace a b n).length = n := by
  unfold linspace
  split_ifs <;> simp

theorem linspace_head (a b : ℚ) {n : Nat} (h : 0 < n) :
    (linspace a b n).getD 0 0 = a := by
  unfold linspace
  split_ifs with h1
  · have hn : n = 1 := le_antisymm h1 h
    subst hn
    rfl
  · push_neg at h1
    have hlen : 0 < ((List.range n).map
        fun i : Nat => a + (b - a) * (i : ℚ) / ((n : ℚ) - 1)).length := by
      rw [List.length_map, List.length_range]
      omega
    rw [List.getD_eq_getElem _ 0 hlen]
    simp only [List.getElem_map, List.getElem_range]
    norm_num

theorem linspace_last (a b : ℚ) {n : Nat} (h : 2 ≤ n) :
    (linspace a b n).getD (n - 1) 0 = b := by
  unfold linspace
  rw [if_neg (by omega)]
  have hlt : n - 1 < ((List.range n).map
      fun i : Nat => a + (b - a) * (i : ℚ) / ((n : ℚ) - 1)).length := by
    rw [List.length_map, List.length_range]
    omega
  rw [List.getD_eq_getElem _ 0 hlt]
  simp only [List.getElem_map, List.getElem_range]
  have hcast : ((n - 1 : Nat) : ℚ) = (n : ℚ) - 1 := by
    have : (1 : Nat) ≤ n := by omega
    push_cast [Nat.cast_sub this]
    ring
  have hne : ((n : ℚ) - 1) ≠ 0 := by
    have : (2 : ℚ) ≤ (n : ℚ) := by exact_mod_cast h
    linarith
  rw [hcast, mul_div_assoc, div_self hne, mul_one]
  ring

theorem clampMax3_length (hm : Option ℚ) (hh : List (List (List ℚ))) :
    (clampMax3 hm hh).length = hh.length := by
  cases hm <;> simp [clampMax3]

theorem preCFL_lb (p : SizeParams) (vp : List ℚ) (es : List (Nat × Nat × ℚ))
    (n : Nat) (hM : ∀ M, p.hmax = some M → p.hmin ≤ M) (hg : 0 ≤ p.grade)
    (hval : ∀ e ∈ es, e.1 < vp.length ∧ e.2.1 < vp.length ∧ 0 ≤ e.2.2) :
    ∀ x ∈ gradeStep p es n (clampStep p (wlInit p vp)), p.hmin ≤ x := by
  have hlen2 : (clampStep p (wlInit p vp)).length = vp.length := by
    rw [clampStep_length, wlInit_length]
  have hlb2 : ∀ x ∈ clampStep p (wlInit p vp), p.hmin ≤ x :=
    clampStep_lb _ hM
  unfold gradeStep
  split_ifs with hgr
  · refine limgrad_lb (fun e he => ?_) hg hlb2
    rw [hlen2]
    exact hval e he
  · exact hlb2

theorem preCFL_length (p : SizeParams) (vp : List ℚ)
    (es : List (Nat × Nat × ℚ)) (n : Nat) :
    (gradeStep p es n (clampStep p (wlInit p vp))).length = vp.length := by
  rw [gradeStep_length, clampStep_length, wlInit_length]

/-- Claim C1, counterexample: with finite `hmax = 5`, `hmin = 1`, constant
velocity 1500, `dt = 0.001` and `cr_max = 0.2`, the builder's output before
domain extension is `[7.5]`, which exceeds `hmax`: the CFL step (which runs
last) is not re-clamped, so `max(value) ≤ hmax` fails as stated. -/
theorem C1_counterexample :
    buildField paramsCflOverride [1500] [] 0 = [15/2] ∧ ¬ ((15 : ℚ)/2 ≤ 5) := by
  constructor
  · norm_num [buildField, cflStep, gradeStep, clampStep, wlInit, clampHminL,
      clampHmaxL, cflAdjust, cflNode, paramsCflOverride]
  · norm_num

/-- Claim C1, amended: after all builder steps every value is at least
`hmin`; the `hmax` bound holds for every run in which the CFL rule is
disabled (`dt = 0`), but the CFL step, which runs last, may push values
above a finite `hmax`. -/
theorem C1_amended (p : SizeParams) (vp : List ℚ) (es : List (Nat × Nat × ℚ))
    (n : Nat) (M : ℚ) (hM : p.hmax = some M) (hminM : p.hmin ≤ M)
    (h0 : 0 < p.hmin) (hcr : 0 < p.cr_max) (hg : 0 ≤ p.grade)
    (hval : ∀ e ∈ es, e.1 < vp.length ∧ e.2.1 < vp.length ∧ 0 ≤ e.2.2) :
    (∀ x ∈ buildField p vp es n, p.hmin ≤ x) ∧
    (p.dt = 0 → ∀ x ∈ buildField p vp es n, x ≤ M) := by
  have hMimp : ∀ M', p.hmax = some M' → p.hmin ≤ M' := by
    intro M' hM'
    rw [hM] at hM'
    injection hM' with h
    rw [← h]
    exact hminM
  have hlb4 := preCFL_lb p vp es n hMimp hg hval
  constructor
  · unfold buildField cflStep
    split_ifs with hdt
    · exact cflAdjust_lb hcr h0 hlb4
    · exact hlb4
  · intro hdt0
    have hne : ¬ 0 < p.dt := by
      rw [hdt0]
      exact lt_irrefl 0
    unfold buildField cflStep
    rw [if_neg hne]
    have hub2 : ∀ x ∈ clampStep p (wlInit p vp), x ≤ M := clampStep_ub _ hM
    unfold gradeStep
    split_ifs with hgr
    · exact listLE_mem_le (limgrad_le _ _ _ _) hub2
    · exact hub2

/-- Claim C1, witness: the amended bounds at a concrete run with
`hmin = 1`, `hmax = 5`, `dt = 0` and one velocity node. -/
theorem C1_witness :
    paramsClampOnly.hmax = some 5 ∧ (1 : ℚ) ≤ 5 ∧ (0 : ℚ) < 1 ∧
    (0 : ℚ) < 1/5 ∧ (0 : ℚ) ≤ 0 ∧
    ((∀ x ∈ buildField paramsClampOnly [1500] [] 0, (1 : ℚ) ≤ x) ∧
     (paramsClampOnly.dt = 0 → ∀ x ∈ buildField paramsClampOnly [1500] [] 0, x ≤ 5)) :=
  ⟨rfl, by norm_num, by norm_num, by norm_num, le_rfl,
   C1_amended paramsClampOnly [1500] [] 0 5 rfl (by norm_num [paramsClampOnly])
     (by norm_num [paramsClampOnly]) (by norm_num [paramsClampOnly]) le_rfl (by simp)⟩

/-- Claim C2, counterexample: with the wavelength rule, `grade = 0.1`
(bound 1 across the single lattice edge of length 10), `dt = 1` and
`cr_max = 0.2`, the code's order (gradation, then CFL) produces
`[500, 5000]`, while the claimed order (CFL inside the builder, then
gradation) produces `[500, 501]`; the final grid `[500, 5000]` is the
CFL-adjusted field, not the gradation-limited one. -/
theorem C2_counterexample :
    buildField paramsGradeThenCfl [100, 1000] [(0, 1, 10)] 5 = [500, 5000] ∧
    buildFieldClaimOrder paramsGradeThenCfl [100, 1000] [(0, 1, 10)] 5 = [500, 501] ∧
    ([500, 5000] : List ℚ) ≠ [500, 501] := by
  refine ⟨?_, ?_, by norm_num⟩
  · norm_num [buildField, cflStep, gradeStep, clampStep, wlInit, clampHminL,
      clampHmaxL, cflAdjust, cflNode, limgrad, limSweep, limStep, paramsGradeThenCfl]
  · norm_num [buildFieldClaimOrder, cflStep, gradeStep, clampStep, wlInit, clampHminL,
      clampHmaxL, cflAdjust, cflNode, limgrad, limSweep, limStep, paramsGradeThenCfl]

/-- Claim C2, amended: `build` applies gradation limiting before the CFL
adjustment, so the grid handed to the extender/sampler is the CFL-adjusted
image of the gradation-limited field — and, the CFL step being last, the
final grid satisfies the Courant bound at every node. -/
theorem C2_amended (p : SizeParams) (vp : List ℚ) (es : List (Nat × Nat × ℚ))
    (n : Nat) (hdt : 0 < p.dt) (hcr : 0 < p.cr_max) (h0 : 0 < p.hmin)
    (hM : ∀ M, p.hmax = some M → p.hmin ≤ M) (hg : 0 ≤ p.grade)
    (hval : ∀ e ∈ es, e.1 < vp.length ∧ e.2.1 < vp.length ∧ 0 ≤ e.2.2) :
    buildField p vp es n =
      cflAdjust p.dt p.cr_max vp (gradeStep p es n (clampStep p (wlInit p vp))) ∧
    List.Forall₂ (fun v y => v * p.dt / y ≤ p.cr_max) vp (buildField p vp es n) := by
  have heq : buildField p vp es n =
      cflAdjust p.dt p.cr_max vp (gradeStep p es n (clampStep p (wlInit p vp))) := by
    unfold buildField cflStep
    rw [if_pos hdt]
  refine ⟨heq, ?_⟩
  rw [heq]
  refine cflAdjust_courant hcr (preCFL_length p vp es n).symm ?_
  intro x hx
  exact lt_of_lt_of_le h0 (preCFL_lb p vp es n hM hg hval x hx)

/-- Claim C2, witness: the amended statement at the concrete run of the
counterexample. -/
theorem C2_witness :
    (0 : ℚ) < 1 ∧ (0 : ℚ) < 1/5 ∧ (0 : ℚ) ≤ 1/10 ∧
    (buildField paramsGradeThenCfl [100, 1000] [(0, 1, 10)] 5 =
      cflAdjust paramsGradeThenCfl.dt paramsGradeThenCfl.cr_max [100, 1000]
        (gradeStep paramsGradeThenCfl [(0, 1, 10)] 5
          (clampStep paramsGradeThenCfl (wlInit paramsGradeThenCfl [100, 1000]))) ∧
     List.Forall₂ (fun v y => v * paramsGradeThenCfl.dt / y ≤ paramsGradeThenCfl.cr_max)
       [100, 1000] (buildField paramsGradeThenCfl [100, 1000] [(0, 1, 10)] 5)) :=
  ⟨by norm_num, by norm_num, by norm_num,
   C2_amended paramsGradeThenCfl [100, 1000] [(0, 1, 10)] 5
     (by norm_num [paramsGradeThenCfl]) (by norm_num [paramsGradeThenCfl])
     (by norm_num [paramsGradeThenCfl]) (fun M h => Option.noConfusion h)
     (by norm_num [paramsGradeThenCfl])
     (by
       rintro e he
       rcases List.mem_singleton.mp he with rfl
       exact ⟨by norm_num, by norm_num, by norm_num⟩)⟩

/-- Claim C3, counterexample: at the spec's own scenario (velocity 1500,
`dt = 0.001`, `cr_max = 0.2`, `h = 5`) the CFL update replaces 5 with 7.5,
a strictly larger value — the step increases, not shrinks, the node. -/
theorem C3_counterexample :
    cflNode (1/1000) (1/5) 1500 5 = 15/2 ∧ (5 : ℚ) < 15/2 := by
  constructor
  · norm_num [cflNode]
  · norm_num

/-- Claim C3, amended: where the Courant number exceeds `cr_max` the CFL
update replaces `h` by `velocity * dt / cr_max`, a strictly larger value
(the step never decreases a node); nodes already satisfying
`cr ≤ cr_max` are left unchanged. -/
theorem C3_amended (v dt cr x : ℚ) (hx : 0 < x) (hcr : 0 < cr) :
    (cr < v * dt / x →
      x < cflNode dt cr v x ∧ cflNode dt cr v x = v * dt / cr) ∧
    (v * dt / x ≤ cr → cflNode dt cr v x = x) := by
  constructor
  · intro hgt
    have h1 : cr * x < v * dt := (lt_div_iff₀ hx).mp hgt
    have h2 : x < v * dt / cr :=
      (lt_div_iff₀ hcr).mpr (by linarith [mul_comm x cr])
    unfold cflNode
    rw [if_pos hgt]
    exact ⟨h2, rfl⟩
  · intro hle
    unfold cflNode
    rw [if_neg (not_lt.mpr hle)]

/-- Claim C3, witness: the amended statement at the spec's scenario. -/
theorem C3_witness :
    (0 : ℚ) < 5 ∧ (0 : ℚ) < 1/5 ∧
    (((1/5 : ℚ) < 1500 * (1/1000) / 5 →
       (5 : ℚ) < cflNode (1/1000) (1/5) 1500 5 ∧
       cflNode (1/1000) (1/5) 1500 5 = 1500 * (1/1000) / (1/5)) ∧
     (1500 * (1/1000) / 5 ≤ (1/5 : ℚ) → cflNode (1/1000) (1/5) 1500 5 = 5)) :=
  ⟨by norm_num, by norm_num,
   C3_amended 1500 (1/1000) (1/5) 5 (by norm_num) (by norm_num)⟩

/-- Claim C4: whenever the gradient limiter reports convergence within the
iteration cap, every lattice edge `(a, b, d)` of the limited field
satisfies `|h_a - h_b| ≤ grade * d` exactly (tolerance zero in exact
arithmetic); non-convergence only flips the report flag — the best-effort
field is still returned, a warning, not an error. -/
theorem C4_gradation (g : ℚ) (es : List (Nat × Nat × ℚ)) (n : Nat)
    (h : List ℚ) (hval : ∀ e ∈ es, e.1 < h.length ∧ e.2.1 < h.length)
    (hconv : (limgrad g es n h).2 = true) :
    ∀ e ∈ es, |(limgrad g es n h).1.getD e.1 0 -
      (limgrad g es n h).1.getD e.2.1 0| ≤ g * e.2.2 := by
  intro e he
  have hfix := limSweep_fix (limgrad_conv hconv) e he
  have hlen := limgrad_length g es n h
  refine limStep_fix_inv ?_ ?_ hfix
  · rw [hlen]
    exact (hval e he).1
  · rw [hlen]
    exact (hval e he).2

/-- Claim C4, witness: the spec's spike scenario — a 3-by-1 lattice with
all nodes at 50 except one at 500, spacing 10, `grade = 0.1` — converges,
and every lattice-adjacent pair of the limited field differs by at most
`0.1 * 10 = 1`. -/
theorem C4_witness :
    latticeEdges2D 3 1 10 = [(0, 1, (10 : ℚ)), (1, 2, 10)] ∧
    (∀ e ∈ latticeEdges2D 3 1 10,
      e.1 < ([50, 500, 50] : List ℚ).length ∧
      e.2.1 < ([50, 500, 50] : List ℚ).length) ∧
    (limgrad (1/10) (latticeEdges2D 3 1 10) 10 [50, 500, 50]).2 = true ∧
    (∀ e ∈ latticeEdges2D 3 1 10,
      |(limgrad (1/10) (latticeEdges2D 3 1 10) 10 [50, 500, 50]).1.getD e.1 0 -
       (limgrad (1/10) (latticeEdges2D 3 1 10) 10 [50, 500, 50]).1.getD e.2.1 0| ≤
        (1/10) * e.2.2) := by
  have hE : latticeEdges2D 3 1 10 = [(0, 1, (10 : ℚ)), (1, 2, 10)] := by rfl
  have hval : ∀ e ∈ latticeEdges2D 3 1 10,
      e.1 < ([50, 500, 50] : List ℚ).length ∧
      e.2.1 < ([50, 500, 50] : List ℚ).length := by
    rw [hE]
    rintro e he
    rcases List.mem_cons.mp he with rfl | he2
    · exact ⟨by norm_num, by norm_num⟩
    · rcases List.mem_singleton.mp he2 with rfl
      exact ⟨by norm_num, by norm_num⟩
  have hconv : (limgrad (1/10) (latticeEdges2D 3 1 10) 10 [50, 500, 50]).2 = true := by
    rw [hE]
    norm_num [limgrad, limSweep, limStep]
  exact ⟨hE, hval, hconv,
    C4_gradation (1/10) (latticeEdges2D 3 1 10) 10 [50, 500, 50] hval hconv⟩

/-- Claim C5: a 5-value bounding box is accepted by the constructor — the
bbox setter's assertion `4 <= len <= 6` passes for length 5 and
`dim = int(5 / 2) = 2` passes the dim setter's assertion — contradicting
both the claim and the assertion's own message that only 4 or 6 values are
legal. -/
theorem C5_five_value_bbox_accepted :
    initBboxAccepted 5 = true ∧ bboxSetterOk 5 = true ∧ (5 / 2 : Nat) = 2 := by
  decide

theorem createDomainExtension_domain_ext (s : MsfState) :
    (createDomainExtension s).domain_ext = s.domain_ext := by
  unfold createDomainExtension
  split_ifs <;> rfl

theorem createDomainExtension_nnx (s : MsfState) :
    nnxOf (createDomainExtension s) = nnxOf s := by
  unfold nnxOf createDomainExtension
  split_ifs <;> rfl

/-- Claim C6, counterexample: a 3D run with `domain_ext = 2` and pad style
`constant` reports the unsupported style, yet the bounding box is still
extended while the 1-by-1-by-1 grid comes back unpadded — the extension
step is not aborted, and the inconsistently extended state is what `build`
hands downstream. -/
theorem C6_counterexample :
    (buildExtend3D extState3D .constant none [[[5]]]).1.bbox =
      [-1002, 0, -2, 2002, -2, 2002] ∧
    (buildExtend3D extState3D .constant none [[[5]]]).2.1 = [[[5]]] ∧
    (buildExtend3D extState3D .constant none [[[5]]]).2.2 = true := by
  norm_num [buildExtend3D, createDomainExtension, editMeshSizeFunction3D,
    clampMax3, extState3D]

/-- Claim C6, amended: for every 3D run with `domain_ext > 0` and a pad
style other than edge, the request is reported (a message is printed) and
the pad style is not silently substituted — the grid is merely re-clamped,
keeping its unpadded shape — but the extension step is not aborted: the
bounding box is still rewritten by `__CreateDomainExtension`, so an
extended bbox is handed downstream together with an unpadded grid. -/
theorem C6_amended (s : MsfState) (ps : PadStyle) (hm : Option ℚ)
    (hh : List (List (List ℚ))) (he : 0 < s.domain_ext)
    (hps : ps ≠ PadStyle.edge) :
    (buildExtend3D s ps hm hh).2.2 = true ∧
    (buildExtend3D s ps hm hh).2.1 = clampMax3 hm hh ∧
    (buildExtend3D s ps hm hh).2.1.length = hh.length ∧
    (buildExtend3D s ps hm hh).1 = createDomainExtension s := by
  cases ps with
  | edge => exact absurd rfl hps
  | constant =>
    have hred : buildExtend3D s PadStyle.constant hm hh =
        (createDomainExtension s, clampMax3 hm hh, true) := by
      unfold buildExtend3D
      rw [if_pos he]
      rfl
    rw [hred]
    exact ⟨rfl, rfl, clampMax3_length hm hh, rfl⟩
  | linearRamp =>
    have hred : buildExtend3D s PadStyle.linearRamp hm hh =
        (createDomainExtension s, clampMax3 hm hh, true) := by
      unfold buildExtend3D
      rw [if_pos he]
      rfl
    rw [hred]
    exact ⟨rfl, rfl, clampMax3_length hm hh, rfl⟩

/-- Claim C6, witness: the amended statement at the concrete 3D run of the
counterexample. -/
theorem C6_witness :
    (0 : ℚ) < extState3D.domain_ext ∧ PadStyle.constant ≠ PadStyle.edge ∧
    ((buildExtend3D extState3D .constant none [[[5]]]).2.2 = true ∧
     (buildExtend3D extState3D .constant none [[[5]]]).2.1 =
       clampMax3 none [[[5]]] ∧
     (buildExtend3D extState3D .constant none [[[5]]]).2.1.length =
       ([[[5]]] : List (List (List ℚ))).length ∧
     (buildExtend3D extState3D .constant none [[[5]]]).1 =
       createDomainExtension extState3D) :=
  ⟨by norm_num [extState3D], by decide,
   C6_amended extState3D .constant none [[[5]]] (by norm_num [extState3D])
     (by decide)⟩

/-- Claim C7, counterexample: for the valid, non-anchored bounding box
`(-1000, 100, 50, 2050)` (width 2000, depth 1100 as `__init__` derives
them), the sampler's z coordinate vector spans `[-1100, 0]`, not the bbox's
z range `[-1000, 100]`: the vectors match the bbox only for boxes anchored
at `zmax = 0` and `xmin = 0`. -/
theorem C7_counterexample :
    (createDomainVectors2D skewedState2D 2 2).1 = [-1100, 0] ∧
    skewedState2D.bbox.getD 0 0 = -1000 ∧ ((-1100 : ℚ) ≠ -1000) := by
  refine ⟨?_, by norm_num [skewedState2D], by norm_num⟩
  norm_num [createDomainVectors2D, skewedState2D, linspace, nnxOf,
    List.range_succ, Rat.floor, show Int.toNat 0 = 0 from rfl]

/-- Claim C7, amended: the coordinate vectors span `[-depth, 0]` and
`[-domain_ext, width - domain_ext]` with node counts equal to the padded
grid shape; for bounding boxes anchored at `zmax = 0` and `xmin = 0` (and
only through that anchoring) these endpoints coincide with the possibly
extended bounding box's low and high bounds on each axis. -/
theorem C7_amended (s : MsfState) (nz nx : Nat) (hdim : s.dim = 2)
    (hb1 : s.bbox.getD 1 0 = 0) (hb2 : s.bbox.getD 2 0 = 0)
    (hdepth : s.depth = s.bbox.getD 1 0 - s.bbox.getD 0 0)
    (hwidth : s.width = s.bbox.getD 3 0 - s.bbox.getD 2 0)
    (he : 0 ≤ s.domain_ext) (hnz : 2 ≤ nz) (hnx : 2 ≤ nx) :
    (createDomainVectors2D (createDomainExtension s) nz nx).1.length =
      (if 0 < s.domain_ext then nz + nnxOf s else nz) ∧
    (createDomainVectors2D (createDomainExtension s) nz nx).1.getD 0 0 =
      (createDomainExtension s).bbox.getD 0 0 ∧
    (createDomainVectors2D (createDomainExtension s) nz nx).1.getD
        ((if 0 < s.domain_ext then nz + nnxOf s else nz) - 1) 0 =
      (createDomainExtension s).bbox.getD 1 0 ∧
    (createDomainVectors2D (createDomainExtension s) nz nx).2.length =
      (if 0 < s.domain_ext then nx + 2 * nnxOf s else nx) ∧
    (createDomainVectors2D (createDomainExtension s) nz nx).2.getD 0 0 =
      (createDomainExtension s).bbox.getD 2 0 ∧
    (createDomainVectors2D (createDomainExtension s) nz nx).2.getD
        ((if 0 < s.domain_ext then nx + 2 * nnxOf s else nx) - 1) 0 =
      (createDomainExtension s).bbox.getD 3 0 := by
  by_cases hpos : 0 < s.domain_ext
  · have hs' : createDomainExtension s =
        { s with
          bbox := [s.bbox.getD 0 0 - s.domain_ext, s.bbox.getD 1 0,
                   s.bbox.getD 2 0 - s.domain_ext,
                   s.bbox.getD 3 0 + s.domain_ext],
          width := (s.bbox.getD 3 0 + s.domain_ext) -
                   (s.bbox.getD 2 0 - s.domain_ext),
          depth := s.bbox.getD 1 0 - (s.bbox.getD 0 0 - s.domain_ext) } := by
      unfold createDomainExtension
      rw [if_pos hpos, if_pos hdim]
      rfl
    simp only [createDomainVectors2D, createDomainExtension_nnx,
      createDomainExtension_domain_ext, if_pos hpos]
    have hz1 : 0 < nz + nnxOf s := by omega
    have hz2 : 2 ≤ nz + nnxOf s := by omega
    have hx1 : 0 < nx + 2 * nnxOf s := by omega
    have hx2 : 2 ≤ nx + 2 * nnxOf s := by omega
    refine ⟨linspace_length _ _ _, ?_, ?_, linspace_length _ _ _, ?_, ?_⟩
    · rw [linspace_head _ _ hz1, hs']
      show -(s.bbox.getD 1 0 - (s.bbox.getD 0 0 - s.domain_ext)) =
        s.bbox.getD 0 0 - s.domain_ext
      rw [hb1]
      ring
    · rw [linspace_last _ _ hz2, hs']
      show (0 : ℚ) = s.bbox.getD 1 0
      rw [hb1]
    · rw [linspace_head _ _ hx1, hs']
      show 0 - s.domain_ext = s.bbox.getD 2 0 - s.domain_ext
      rw [hb2]
    · rw [linspace_last _ _ hx2, hs']
      show (s.bbox.getD 3 0 + s.domain_ext) -
          (s.bbox.getD 2 0 - s.domain_ext) - s.domain_ext =
        s.bbox.getD 3 0 + s.domain_ext
      rw [hb2]
      ring
  · have he0 : s.domain_ext = 0 := le_antisymm (not_lt.mp hpos) he
    have hs' : createDomainExtension s = s := by
      unfold createDomainExtension
      rw [if_neg hpos]
    rw [hs']
    simp only [createDomainVectors2D, if_neg hpos]
    have hz1 : 0 < nz := by omega
    have hx1 : 0 < nx := by omega
    refine ⟨linspace_length _ _ _, ?_, ?_, linspace_length _ _ _, ?_, ?_⟩
    · rw [linspace_head _ _ hz1, hdepth, hb1]
      ring
    · rw [linspace_last _ _ hnz, hb1]
    · rw [linspace_head _ _ hx1, he0, hb2]
      norm_num
    · rw [linspace_last _ _ hnx, he0, hwidth, hb2]
      ring

/-- Claim C7, witness: the amended statement at a concrete anchored state
(`bbox = (-1000, 0, 0, 2000)`, `domain_ext = 200`, spacing 100, a 3-by-3
grid). -/
theorem C7_witness :
    anchoredState2D.dim = 2 ∧ (2 ≤ 3) ∧ ((0 : ℚ) ≤ anchoredState2D.domain_ext) ∧
    ((createDomainVectors2D (createDomainExtension anchoredState2D) 3 3).1.length =
       (if 0 < anchoredState2D.domain_ext then 3 + nnxOf anchoredState2D else 3) ∧
     (createDomainVectors2D (createDomainExtension anchoredState2D) 3 3).1.getD 0 0 =
       (createDomainExtension anchoredState2D).bbox.getD 0 0 ∧
     (createDomainVectors2D (createDomainExtension anchoredState2D) 3 3).1.getD
         ((if 0 < anchoredState2D.domain_ext then 3 + nnxOf anchoredState2D else 3) - 1) 0 =
       (createDomainExtension anchoredState2D).bbox.getD 1 0 ∧
     (createDomainVectors2D (createDomainExtension anchoredState2D) 3 3).2.length =
       (if 0 < anchoredState2D.domain_ext then 3 + 2 * nnxOf anchoredState2D else 3) ∧
     (createDomainVectors2D (createDomainExtension anchoredState2D) 3 3).2.getD 0 0 =
       (createDomainExtension anchoredState2D).bbox.getD 2 0 ∧
     (createDomainVectors2D (createDomainExtension anchoredState2D) 3 3).2.getD
         ((if 0 < anchoredState2D.domain_ext then 3 + 2 * nnxOf anchoredState2D else 3) - 1) 0 =
       (createDomainExtension anchoredState2D).bbox.getD 3 0) :=
  ⟨rfl, by norm_num, by norm_num [anchoredState2D],
   C7_amended anchoredState2D 3 3 rfl rfl rfl (by norm_num [anchoredState2D])
     (by norm_num [anchoredState2D]) (by norm_num [anchoredState2D])
     (by norm_num) (by norm_num)⟩

/-- Claim C8: extending the 2D bounding box `(-1000, 0, 0, 2000)` by width
200 yields `(-1200, 0, -200, 2200)` — the depth axis grows by 200 on the
far (low) side only, and the lateral axis grows by 200 on each side
(width 2000 to 2400). -/
theorem C8_extension_geometry :
    (createDomainExtension extState2D).bbox = [-1200, 0, -200, 2200] ∧
    (createDomainExtension extState2D).width = 2400 ∧
    (createDomainExtension extState2D).depth = 1200 := by
  norm_num [createDomainExtension, extState2D]

/-- Claim C9: after the optional domain extension, `build` checks
`np.all(hh_m > 0.0)`; a grid holding any non-positive value makes the
check fail, so the run produces nothing — no interpolant and no boundary
function. -/
theorem C9_positivity_fatal (s : MsfState) (ps : PadStyle) (hm : Option ℚ)
    (hh : List (List ℚ))
    (hnp : ∃ x ∈ (extendedGrid2D s ps hm hh).flatten, x ≤ 0) :
    buildTail2D s ps hm hh = none := by
  have hcond : ¬ ((extendedGrid2D s ps hm hh).flatten.all
      (fun x => decide (0 < x)) = true) := by
    obtain ⟨x, hx, hle⟩ := hnp
    rw [List.all_eq_true]
    intro hall
    exact absurd (of_decide_eq_true (hall x hx)) (not_lt.mpr hle)
  unfold buildTail2D
  rw [if_neg hcond]

/-- Claim C9, witness: a grid holding the value 0 is rejected — the run
returns nothing. -/
theorem C9_witness :
    (∃ x ∈ (extendedGrid2D skewedState2D .edge none [[0]]).flatten, x ≤ 0) ∧
    buildTail2D skewedState2D .edge none [[0]] = none := by
  have hex : ∃ x ∈ (extendedGrid2D skewedState2D .edge none [[0]]).flatten,
      x ≤ 0 := by
    refine ⟨0, ?_, le_rfl⟩
    norm_num [extendedGrid2D, skewedState2D]
  exact ⟨hex, C9_positivity_fatal _ _ _ _ hex⟩

theorem buildStateEffect_pos {t : MsfState} (h : 0 < t.domain_ext) :
    buildStateEffect t = createDomainExtension t := by
  unfold buildStateEffect
  rw [if_pos h]

theorem createDomainExtension_eq2D {s : MsfState} (hpos : 0 < s.domain_ext)
    (hdim : s.dim = 2) :
    createDomainExtension s =
      { s with
        bbox := [s.bbox.getD 0 0 - s.domain_ext, s.bbox.getD 1 0,
                 s.bbox.getD 2 0 - s.domain_ext,
                 s.bbox.getD 3 0 + s.domain_ext],
        width := (s.bbox.getD 3 0 + s.domain_ext) -
                 (s.bbox.getD 2 0 - s.domain_ext),
        depth := s.bbox.getD 1 0 - (s.bbox.getD 0 0 - s.domain_ext) } := by
  unfold createDomainExtension
  rw [if_pos hpos, if_pos hdim]
  rfl

/-- Claim C10: for a 2D object with `domain_ext > 0`, `build` rewrites the
stored bbox, width and depth in place (`bbox[0]` and `bbox[2]` decrease by
`domain_ext`, `bbox[3]` increases by it, width grows by twice the
extension, depth by the extension), and a second `build` on the same
object extends the domain again — the state effect of `build` is not
idempotent. -/
theorem C10_build_mutates_state (s : MsfState) (hdim : s.dim = 2)
    (he : 0 < s.domain_ext)
    (hwidth : s.width = s.bbox.getD 3 0 - s.bbox.getD 2 0)
    (hdepth : s.depth = s.bbox.getD 1 0 - s.bbox.getD 0 0) :
    (buildStateEffect s).bbox.getD 0 0 = s.bbox.getD 0 0 - s.domain_ext ∧
    (buildStateEffect s).bbox.getD 2 0 = s.bbox.getD 2 0 - s.domain_ext ∧
    (buildStateEffect s).bbox.getD 3 0 = s.bbox.getD 3 0 + s.domain_ext ∧
    (buildStateEffect s).width = s.width + 2 * s.domain_ext ∧
    (buildStateEffect s).depth = s.depth + s.domain_ext ∧
    (buildStateEffect (buildStateEffect s)).bbox.getD 0 0 =
      s.bbox.getD 0 0 - 2 * s.domain_ext ∧
    buildStateEffect (buildStateEffect s) ≠ buildStateEffect s := by
  have hb : buildStateEffect s = createDomainExtension s :=
    buildStateEffect_pos he
  have hkey : buildStateEffect s =
      { s with
        bbox := [s.bbox.getD 0 0 - s.domain_ext, s.bbox.getD 1 0,
                 s.bbox.getD 2 0 - s.domain_ext,
                 s.bbox.getD 3 0 + s.domain_ext],
        width := (s.bbox.getD 3 0 + s.domain_ext) -
                 (s.bbox.getD 2 0 - s.domain_ext),
        depth := s.bbox.getD 1 0 - (s.bbox.getD 0 0 - s.domain_ext) } :=
    hb.trans (createDomainExtension_eq2D he hdim)
  have c0 : (buildStateEffect s).bbox.getD 0 0 =
      s.bbox.getD 0 0 - s.domain_ext := by
    rw [hkey]
    rfl
  have c2 : (buildStateEffect s).bbox.getD 2 0 =
      s.bbox.getD 2 0 - s.domain_ext := by
    rw [hkey]
    rfl
  have c3 : (buildStateEffect s).bbox.getD 3 0 =
      s.bbox.getD 3 0 + s.domain_ext := by
    rw [hkey]
    rfl
  have cw : (buildStateEffect s).width = s.width + 2 * s.domain_ext := by
    rw [hkey, hwidth]
    show (s.bbox.getD 3 0 + s.domain_ext) - (s.bbox.getD 2 0 - s.domain_ext) =
      s.bbox.getD 3 0 - s.bbox.getD 2 0 + 2 * s.domain_ext
    ring
  have cd : (buildStateEffect s).depth = s.depth + s.domain_ext := by
    rw [hkey, hdepth]
    show s.bbox.getD 1 0 - (s.bbox.getD 0 0 - s.domain_ext) =
      s.bbox.getD 1 0 - s.bbox.getD 0 0 + s.domain_ext
    ring
  have ht1e : (buildStateEffect s).domain_ext = s.domain_ext := by
    rw [hkey]
  have ht1d : (buildStateEffect s).dim = 2 := by
    rw [hkey]
    exact hdim
  have he2 : 0 < (buildStateEffect s).domain_ext := by
    rw [ht1e]
    exact he
  have hb2 : buildStateEffect (buildStateEffect s) =
      createDomainExtension (buildStateEffect s) :=
    buildStateEffect_pos he2
  have c0' : (buildStateEffect (buildStateEffect s)).bbox.getD 0 0 =
      (buildStateEffect s).bbox.getD 0 0 - (buildStateEffect s).domain_ext := by
    rw [hb2.trans (createDomainExtension_eq2D he2 ht1d)]
    rfl
  have c0'' : (buildStateEffect (buildStateEffect s)).bbox.getD 0 0 =
      s.bbox.getD 0 0 - 2 * s.domain_ext := by
    rw [c0', c0, ht1e]
    ring
  refine ⟨c0, c2, c3, cw, cd, c0'', ?_⟩
  intro heq
  have hcontr := congrArg (fun t => t.bbox.getD 0 0) heq
  simp only at hcontr
  rw [c0'', c0] at hcontr
  have : s.domain_ext = 0 := by linarith
  rw [this] at he
  exact lt_irrefl 0 he

/-- Claim C10, witness: the state effect at the concrete 2D object of the
extension example — the second run moves `bbox[0]` to -1400. -/
theorem C10_witness :
    extState2D.dim = 2 ∧ (0 : ℚ) < extState2D.domain_ext ∧
    ((buildStateEffect extState2D).bbox.getD 0 0 =
       extState2D.bbox.getD 0 0 - extState2D.domain_ext ∧
     (buildStateEffect extState2D).bbox.getD 2 0 =
       extState2D.bbox.getD 2 0 - extState2D.domain_ext ∧
     (buildStateEffect extState2D).bbox.getD 3 0 =
       extState2D.bbox.getD 3 0 + extState2D.domain_ext ∧
     (buildStateEffect extState2D).width =
       extState2D.width + 2 * extState2D.domain_ext ∧
     (buildStateEffect extState2D).depth =
       extState2D.depth + extState2D.domain_ext ∧
     (buildStateEffect (buildStateEffect extState2D)).bbox.getD 0 0 =
       extState2D.bbox.getD 0 0 - 2 * extState2D.domain_ext ∧
     buildStateEffect (buildStateEffect extState2D) ≠
       buildStateEffect extState2D) :=
  ⟨rfl, by norm_num [extState2D],
   C10_build_mutates_state extState2D rfl (by norm_num [extState2D])
     (by norm_num [extState2D]) (by norm_num [extState2D])⟩

end SeismicMesh
